import Mathlib

/-!
Verification of the Litetouch serial command engine
(`src/commandQueue.ts` and `src/litetouchConnection.ts`).

The embedding below translates the TypeScript source into Lean:

* pure helpers (`parseStatusResponse`, the `setDimmer` encoding, the
  query-address extraction regex) become Lean functions on `String` /
  `List Char`;
* the stateful queue + transport pair becomes an explicit state type
  `ConnState` with a deterministic transition function `step` over an
  `Event` alphabet.  Each event corresponds to one macro-task of the
  single-threaded JavaScript runtime together with the microtasks it
  drains (promise continuations), which is exactly the cooperative
  single-scheduler discipline of the source.
-/

namespace Litetouch

/-- Priority classes of `commandQueue.ts` (`CommandPriority`):
`HIGH` for user-initiated commands, `NORMAL` for polling. -/
inductive CommandPriority
  | HIGH
  | NORMAL
deriving DecidableEq

/-- A queued command (`QueuedCommand` in `commandQueue.ts`).  The
`resolve`/`reject` callbacks of the completion promise are represented by
the numeric handle `id`; the resolution of handle `id` is recorded in the
`resolutions` trace of `ConnState`.  The `timestamp` field of the source
plays no role in any behaviour and is omitted. -/
structure QueuedCommand where
  command : String
  priority : CommandPriority
  id : Nat
deriving DecidableEq

/-- The final outcome of one command's completion promise: resolved with a
response string, resolved with null (`value none`, the timeout case), or
rejected with an error message. -/
inductive HandleResult
  | value (r : Option String)
  | error (e : String)
deriving DecidableEq

/-- The single `pendingResponse` slot of `litetouchConnection.ts`: the
handle of the in-flight command plus the address captured from the command
text when it was a query (for response correlation). -/
structure PendingExchange where
  hid : Nat
  address : Option String
deriving DecidableEq

/-- `LoadStatus` of `litetouchConnection.ts`. -/
structure LoadStatus where
  address : String
  level : Nat
  raw : Nat
deriving DecidableEq

/-! ### Pure helpers: numeric conversions and the two regexes -/

/-- `Math.round (a / b)` for natural `a` and positive natural `b`,
i.e. rounding half toward positive infinity.  Used for the exact value of
the JavaScript float expressions `Math.round((raw / 250) * 100)` and
`Math.round((clampedLevel / 100) * 250)`, which on the integer inputs that
occur here compute the mathematically exact rounding. -/
def mathRoundDiv (a b : Nat) : Nat := (2 * a + b) / (2 * b)

/-- The level computation of `parseStatusResponse`
(`litetouchConnection.ts` line 183):
`raw <= 1 ? raw * 100 : Math.round((raw / 250) * 100)`. -/
def rawToLevel (raw : Nat) : Nat :=
  if raw ≤ 1 then raw * 100 else mathRoundDiv (raw * 100) 250

/-- Numeric value of a decimal digit character. -/
def digitVal (c : Char) : Nat := c.toNat - '0'.toNat

/-- `data.trim()` (JavaScript): remove leading and trailing whitespace. -/
def trimChars (cs : List Char) : List Char :=
  ((cs.dropWhile Char.isWhitespace).reverse.dropWhile Char.isWhitespace).reverse

/-- `data.trim()` on a string. -/
def jsTrim (s : String) : String := String.mk (trimChars s.data)

/-- The regex match of `parseStatusResponse`: `^18\s+(\d{3})$`, returning
`parseInt` of the captured three digits.  The greedy `\s+` is maximal-munch
whitespace (equivalent to the regex since a digit is not whitespace). -/
def match18VVV (cs : List Char) : Option Nat :=
  match cs with
  | c1 :: c2 :: c3 :: rest =>
    if c1 = '1' ∧ c2 = '8' ∧ c3.isWhitespace then
      match rest.dropWhile Char.isWhitespace with
      | [d1, d2, d3] =>
        if d1.isDigit ∧ d2.isDigit ∧ d3.isDigit then
          some (100 * digitVal d1 + 10 * digitVal d2 + digitVal d3)
        else none
      | _ => none
    else none
  | _ => none

/-- `LitetouchConnection.parseStatusResponse` (lines 172-186): match the
response against `^18\s+(\d{3})$`; if there is no match or no correlated
address, return null; otherwise decode the raw value into a level. -/
def parseStatusResponse (response : String) (address : Option String) :
    Option LoadStatus :=
  match match18VVV response.toList, address with
  | some raw, some addr =>
    some { address := addr, level := rawToLevel raw, raw := raw }
  | _, _ => none

/-- One or two leading decimal digits, maximal munch: returns the digit
characters taken and the remaining input.  Equivalent to the regex piece
`\d{1,2}` followed by a non-digit requirement induced by the context in
`extractQueryAddress` (see there). -/
def upTo2Digits : List Char → Option (List Char × List Char)
  | c1 :: rest =>
    if c1.isDigit then
      match rest with
      | c2 :: rest2 =>
        if c2.isDigit then some ([c1, c2], rest2) else some ([c1], rest)
      | [] => some ([c1], [])
    else none
  | [] => none

/-- The query-address capture of `processCommand` (line 201):
`cmd.command.match(/^\s*18\s+(\d{1,2}-\d{1,2})/)`, returning the captured
`MM-O` substring.  Maximal munch is equivalent to the regex here: the
characters `1`, `8` and digits are not whitespace, so `\s*`/`\s+` cannot
profit from backtracking, and after the greedy `\d{1,2}` the regex expects
`-`, which is not a digit, so shortening the digit run cannot create a
match either. -/
def extractQueryAddressL (cs : List Char) : Option String :=
  match cs.dropWhile Char.isWhitespace with
  | c1 :: c2 :: c3 :: rest =>
    if c1 = '1' ∧ c2 = '8' ∧ c3.isWhitespace then
      match upTo2Digits (rest.dropWhile Char.isWhitespace) with
      | some (ds1, '-' :: rest2) =>
        match upTo2Digits rest2 with
        | some (ds2, _) => some (String.mk (ds1 ++ '-' :: ds2))
        | none => none
      | _ => none
    else none
  | _ => none

/-- `extractQueryAddressL` applied to the characters of the command text. -/
def extractQueryAddress (command : String) : Option String :=
  extractQueryAddressL command.toList

/-- The clamp of `setDimmer` (line 251): `Math.max(0, Math.min(100, level))`,
as a natural number. -/
def clamp100 (level : Int) : Nat := (max 0 (min 100 level)).toNat

/-- The raw value computed by `setDimmer` (line 252):
`Math.round((clampedLevel / 100) * 250)`, i.e. exact half-up rounding of
`clampedLevel * 5 / 2` for the integer inputs that occur. -/
def dimmerRaw (level : Int) : Nat := mathRoundDiv (clamp100 level * 250) 100

/-- `rawValue.toString().padStart(3, '0')` (line 253) for values up to three
decimal digits (the raw value is at most 250): the three decimal digits of
`n`, zero-padded. -/
def pad3 (n : Nat) : String :=
  String.mk [Nat.digitChar (n / 100 % 10), Nat.digitChar (n / 10 % 10),
    Nat.digitChar (n % 10)]

/-- The encoded `VVV` field of `setDimmer`. -/
def setDimmerValue (level : Int) : String := pad3 (dimmerRaw level)

/-- The full command text built by `setDimmer` (line 254):
`` ` 10 ${address} ${value}` ``. -/
def setDimmerCommand (address : String) (level : Int) : String :=
  " 10 " ++ address ++ " " ++ setDimmerValue level

/-- The full command text built by `setRelay` (lines 241-242). -/
def setRelayCommand (address : String) (isOn : Bool) : String :=
  " 10 " ++ address ++ " " ++ (if isOn then "001" else "000")

/-- The query command built by `queryLoad` (line 233): `` ` 18 ${address}` ``. -/
def queryLoadCommand (address : String) : String := " 18 " ++ address

/-! ### The queue + transport state machine -/

/-- Combined state of the `CommandQueue` and the transport fields of
`LitetouchConnection` that the queue interacts with.

* `queue`, `processing` — the fields of `CommandQueue`;
* `pending` — the `pendingResponse` slot;
* `portOpen` — `port?.isOpen`;
* `nextId` — generator of fresh completion-handle identifiers;
* `writes` — trace of the frames passed to `port.write`, in order;
* `exchanges` — how many pending exchanges have been resolved so far
  (by a response, a timeout, a write failure, or closing);
* `resolutions` — trace of completion-handle outcomes `(id, result)`;
* `emitted` — trace of `loadStatus` events emitted so far. -/
structure ConnState where
  queue : List QueuedCommand
  processing : Bool
  pending : Option PendingExchange
  portOpen : Bool
  nextId : Nat
  writes : List String
  exchanges : Nat
  resolutions : List (Nat × HandleResult)
  emitted : List LoadStatus
deriving DecidableEq

/-- The priority insertion of `CommandQueue.enqueue` for a HIGH command
(lines 46-53): insert immediately before the first NORMAL entry, or append
when there is none (`findIndex` + `splice`). -/
def insertHigh (c : QueuedCommand) : List QueuedCommand → List QueuedCommand
  | [] => [c]
  | x :: xs =>
    if x.priority = CommandPriority.NORMAL then c :: x :: xs
    else x :: insertHigh c xs

/-- `CommandQueue.enqueue`'s insertion step (lines 45-56): HIGH commands go
before the first NORMAL entry, NORMAL commands are pushed at the back. -/
def enqueueCmd (q : List QueuedCommand) (c : QueuedCommand) :
    List QueuedCommand :=
  match c.priority with
  | CommandPriority.HIGH => insertHigh c q
  | CommandPriority.NORMAL => q ++ [c]

/-- `CommandQueue.processNext` (lines 80-87) together with the synchronous
part of the processor callback `LitetouchConnection.processCommand`
(lines 191-226): if nothing is in flight and the queue is non-empty, pop
the head and hand it to the processor.  With the port open, the processor
captures the query address, installs the pending exchange and writes the
frame.  With the port closed, `processCommand` throws, the queue's `catch`
rejects the command's handle, and the `finally` clears the busy flag. -/
def tryDispatch (s : ConnState) : ConnState :=
  match s.queue with
  | [] => s
  | cmd :: rest =>
    if s.processing then s
    else if s.portOpen then
      { s with
        queue := rest
        processing := true
        pending := some { hid := cmd.id, address := extractQueryAddress cmd.command }
        writes := s.writes ++ [cmd.command ++ "\r"] }
    else
      { s with
        queue := rest
        resolutions := s.resolutions ++ [(cmd.id, HandleResult.error ("Serial port not open"))] }

/-- Events driving the engine.  Each constructor is one macro-task of the
single-threaded runtime together with the promise continuations it drains:

* `submit` — a caller invokes `CommandQueue.enqueue` (a fresh handle is
  created, the command is inserted, `processNext` is attempted);
* `procNext` — a scheduled `processNext` call runs (the `setImmediate`
  continuation, or a redundant call that finds the queue busy or empty);
* `respond` — the readline parser delivers a line (`handleResponse`);
* `timeoutFire` — the armed command timeout fires (only armed while a
  pending exchange exists, since every resolution path clears it);
* `writeFail` — the `port.write` callback reports an error;
* `closeConn` — `LitetouchConnection.close()` is called;
* `clearPolling` — `CommandQueue.clearPollingCommands()` is called;
* `openPort` — `open()` succeeds. -/
inductive Event
  | submit (command : String) (priority : CommandPriority)
  | procNext
  | respond (line : String)
  | timeoutFire
  | writeFail (msg : String)
  | closeConn
  | clearPolling
  | openPort

/-- The transition function.  Each branch is a line-by-line translation of
the corresponding source path; resolving or rejecting the in-flight
promise also runs the queue continuation (`cmd.resolve`/`cmd.reject` and
the `finally` clause clearing `processing`). -/
def step (s : ConnState) : Event → ConnState
  | Event.submit command priority =>
    let c : QueuedCommand := { command := command, priority := priority, id := s.nextId }
    tryDispatch { s with queue := enqueueCmd s.queue c, nextId := s.nextId + 1 }
  | Event.procNext => tryDispatch s
  | Event.respond line =>
    -- handleResponse (lines 147-165): trim, capture the pending address,
    -- resolve and clear the pending exchange if any, then parse and emit.
    let trimmed := jsTrim line
    let pendingAddress := s.pending.bind fun p => p.address
    let s1 :=
      match s.pending with
      | some p =>
        { s with
          pending := none
          processing := false
          exchanges := s.exchanges + 1
          resolutions := s.resolutions ++ [(p.hid, HandleResult.value (some trimmed))] }
      | none => s
    match parseStatusResponse trimmed pendingAddress with
    | some st => { s1 with emitted := s1.emitted ++ [st] }
    | none => s1
  | Event.timeoutFire =>
    -- processCommand's timeout callback (lines 207-211): clear the pending
    -- exchange and resolve with null instead of rejecting.
    match s.pending with
    | some p =>
      { s with
        pending := none
        processing := false
        exchanges := s.exchanges + 1
        resolutions := s.resolutions ++ [(p.hid, HandleResult.value none)] }
    | none => s
  | Event.writeFail msg =>
    -- the port.write error callback (lines 219-225): cancel the timeout,
    -- clear the pending exchange, reject.
    match s.pending with
    | some p =>
      { s with
        pending := none
        processing := false
        exchanges := s.exchanges + 1
        resolutions := s.resolutions ++ [(p.hid, HandleResult.error msg)] }
    | none => s
  | Event.closeConn =>
    -- close() (lines 305-331): clear the queue (rejecting every queued
    -- handle), reject the pending exchange if any, release the port.
    let s1 :=
      { s with
        queue := []
        resolutions := s.resolutions ++
          s.queue.map fun (c : QueuedCommand) => (c.id, HandleResult.error ("Queue cleared")) }
    match s1.pending with
    | some p =>
      { s1 with
        pending := none
        processing := false
        exchanges := s1.exchanges + 1
        resolutions := s1.resolutions ++ [(p.hid, HandleResult.error ("Connection closing"))]
        portOpen := false }
    | none => { s1 with portOpen := false }
  | Event.clearPolling =>
    -- clearPollingCommands (lines 130-138): reject and drop every NORMAL
    -- entry, keep the HIGH entries in order.
    { s with
      queue := s.queue.filter fun c => c.priority = CommandPriority.HIGH
      resolutions := s.resolutions ++
        (s.queue.filter fun c => c.priority = CommandPriority.NORMAL).map
          fun (c : QueuedCommand) => (c.id, HandleResult.error ("Polling command cancelled")) }
  | Event.openPort => { s with portOpen := true }

/-- The initial state: empty queue, idle, no pending exchange, port closed. -/
def initState : ConnState :=
  { queue := [], processing := false, pending := none, portOpen := false,
    nextId := 0, writes := [], exchanges := 0, resolutions := [], emitted := [] }

/-- Run the engine from the initial state over a sequence of events. -/
def run (evs : List Event) : ConnState := evs.foldl step initState

/-! ### The polling driver -/

/-- The polling fields of `LitetouchConnection`: the configured address
list, the rotating cursor, and whether a next tick is scheduled
(`pollingTimer`). -/
structure PollState where
  loadAddresses : List String
  currentPollingIndex : Nat
  timerArmed : Bool
deriving DecidableEq

/-- `setLoadAddresses` (lines 85-88): replace the list and reset the cursor. -/
def setLoadAddresses (ps : PollState) (addresses : List String) : PollState :=
  { ps with loadAddresses := addresses, currentPollingIndex := 0 }

/-- One tick of `pollNextLoad` (lines 273-289).  Returns the new state and
the query command submitted during the tick (`none` when the address list
is empty and the tick no-ops).  In both branches the next tick is
rescheduled (`timerArmed`).  JavaScript indexing out of range would
interpolate `undefined` into the command text, which the model renders
with `List.getD`'s fallback. -/
def pollNextLoad (ps : PollState) : PollState × Option String :=
  if ps.loadAddresses.length = 0 then
    ({ ps with timerArmed := true }, none)
  else
    let address := ps.loadAddresses.getD ps.currentPollingIndex ("undefined")
    ({ ps with
        currentPollingIndex := (ps.currentPollingIndex + 1) % ps.loadAddresses.length
        timerArmed := true },
      some (queryLoadCommand address))

/-- Iterate `n` polling ticks, collecting the submission of each tick. -/
def pollTicks : PollState → Nat → PollState × List (Option String)
  | ps, 0 => (ps, [])
  | ps, n + 1 =>
    let t := pollNextLoad ps
    let r := pollTicks t.1 n
    (r.1, t.2 :: r.2)

/-! ### Invariants -/

/-- The relation maintained between a queue entry `a` and any later entry
`b`: a NORMAL entry is never followed by a HIGH entry, entries of the same
class carry increasing handle identifiers (FIFO by submission, since
identifiers are issued in submission order), and identifiers are distinct. -/
def queueRel (a b : QueuedCommand) : Prop :=
  (a.priority = CommandPriority.NORMAL → b.priority = CommandPriority.NORMAL) ∧
  (a.priority = b.priority → a.id < b.id) ∧
  a.id ≠ b.id

/-- The inductive invariant of the engine:

* `ordered` — the queue satisfies the priority/FIFO ordering;
* `fresh` — every queued entry's handle identifier is below the generator;
* `pendProc` — a pending exchange only exists while the queue's busy flag
  is set (so a dispatch, which requires the flag to be clear, can only
  happen after the previous exchange resolved);
* `oneFlight` — the number of frames written equals the number of resolved
  exchanges, plus one exactly when an exchange is still pending: writes
  and exchange resolutions alternate strictly. -/
structure Inv (s : ConnState) : Prop where
  ordered : s.queue.Pairwise queueRel
  fresh : ∀ c ∈ s.queue, c.id < s.nextId
  pendProc : s.pending = none ∨ s.processing = true
  oneFlight : s.writes.length = s.exchanges + (if s.pending.isSome then 1 else 0)

/-! ### Helper lemmas -/

theorem priority_cases (p : CommandPriority) :
    p = CommandPriority.HIGH ∨ p = CommandPriority.NORMAL := by
  cases p
  · exact Or.inl rfl
  · exact Or.inr rfl

theorem mem_insertHigh {a c : QueuedCommand} :
    ∀ {q : List QueuedCommand}, a ∈ insertHigh c q → a = c ∨ a ∈ q := by
  intro q
  induction q with
  | nil =>
    intro h
    simp only [insertHigh, List.mem_singleton] at h
    exact Or.inl h
  | cons x xs ih =>
    intro h
    by_cases hx : x.priority = CommandPriority.NORMAL
    · rw [insertHigh, if_pos hx] at h
      rcases List.mem_cons.mp h with h1 | h1
      · exact Or.inl h1
      · exact Or.inr h1
    · rw [insertHigh, if_neg hx] at h
      rcases List.mem_cons.mp h with h1 | h1
      · exact Or.inr (h1 ▸ List.mem_cons_self x xs)
      · rcases ih h1 with h2 | h2
        · exact Or.inl h2
        · exact Or.inr (List.mem_cons_of_mem x h2)

theorem pairwise_insertHigh {c : QueuedCommand}
    (hc : c.priority = CommandPriority.HIGH) :
    ∀ {q : List QueuedCommand}, q.Pairwise queueRel →
      (∀ a ∈ q, a.id < c.id) → (insertHigh c q).Pairwise queueRel := by
  intro q
  induction q with
  | nil =>
    intro _ _
    simp [insertHigh]
  | cons x xs ih =>
    intro hq hfresh
    rw [List.pairwise_cons] at hq
    obtain ⟨hxall, hxs⟩ := hq
    by_cases hx : x.priority = CommandPriority.NORMAL
    · rw [insertHigh, if_pos hx]
      refine List.Pairwise.cons ?_ (List.Pairwise.cons hxall hxs)
      intro y hy
      have hyN : y.priority = CommandPriority.NORMAL := by
        rcases List.mem_cons.mp hy with h1 | h1
        · exact h1 ▸ hx
        · exact (hxall y h1).1 hx
      have hyid : y.id < c.id := hfresh y hy
      refine ⟨?_, ?_, ?_⟩
      · intro hcn
        rw [hc] at hcn
        cases hcn
      · intro hpe
        rw [hc, hyN] at hpe
        cases hpe
      · omega
    · rw [insertHigh, if_neg hx]
      refine List.Pairwise.cons ?_
        (ih hxs (fun a ha => hfresh a (List.mem_cons_of_mem x ha)))
      intro y hy
      rcases mem_insertHigh hy with rfl | h1
      · have hxid : x.id < y.id := hfresh x (List.mem_cons_self x xs)
        exact ⟨fun hxn => (hx hxn).elim, fun _ => hxid, by omega⟩
      · exact hxall y h1

theorem mem_enqueueCmd {a c : QueuedCommand} {q : List QueuedCommand}
    (h : a ∈ enqueueCmd q c) : a = c ∨ a ∈ q := by
  rcases priority_cases c.priority with hc | hc <;>
    simp only [enqueueCmd, hc] at h
  · exact mem_insertHigh h
  · rcases List.mem_append.mp h with h1 | h1
    · exact Or.inr h1
    · exact Or.inl (List.mem_singleton.mp h1)

theorem pairwise_enqueueCmd {c : QueuedCommand} {q : List QueuedCommand}
    (hq : q.Pairwise queueRel) (hfresh : ∀ a ∈ q, a.id < c.id) :
    (enqueueCmd q c).Pairwise queueRel := by
  rcases priority_cases c.priority with hc | hc <;> simp only [enqueueCmd, hc]
  · exact pairwise_insertHigh hc hq hfresh
  · rw [List.pairwise_append]
    refine ⟨hq, by simp, ?_⟩
    intro a ha b hb
    rw [List.mem_singleton] at hb
    subst hb
    exact ⟨fun _ => hc, fun _ => hfresh a ha, Nat.ne_of_lt (hfresh a ha)⟩

theorem inv_tryDispatch {s : ConnState} (h : Inv s) : Inv (tryDispatch s) := by
  rcases hq : s.queue with _ | ⟨cmd, rest⟩
  · simpa only [tryDispatch, hq] using h
  · have htl : rest.Pairwise queueRel :=
      (List.pairwise_cons.mp (hq ▸ h.ordered)).2
    have hfr : ∀ c ∈ rest, c.id < s.nextId := by
      intro c hc
      exact h.fresh c (hq ▸ List.mem_cons_of_mem cmd hc)
    by_cases hp : s.processing = true
    · simpa only [tryDispatch, hq, if_pos hp] using h
    · have hpend : s.pending = none := by
        rcases h.pendProc with h1 | h1
        · exact h1
        · exact absurd h1 hp
      have hof : s.writes.length = s.exchanges := by
        have := h.oneFlight
        rw [hpend] at this
        simpa using this
      by_cases ho : s.portOpen = true
      · simp only [tryDispatch, hq, if_neg hp, if_pos ho]
        exact ⟨htl, hfr, Or.inr rfl, by simp [hof]⟩
      · simp only [tryDispatch, hq, if_neg hp, if_neg ho]
        exact ⟨htl, hfr, Or.inl hpend, by simp [hpend, hof]⟩

theorem inv_step {s : ConnState} (h : Inv s) (e : Event) : Inv (step s e) := by
  cases e with
  | submit command priority =>
    apply inv_tryDispatch
    refine ⟨pairwise_enqueueCmd h.ordered (fun a ha => h.fresh a ha), ?_,
      h.pendProc, h.oneFlight⟩
    intro a ha
    rcases mem_enqueueCmd ha with rfl | ha'
    · exact Nat.lt_succ_self _
    · exact Nat.lt_succ_of_lt (h.fresh a ha')
  | procNext => exact inv_tryDispatch h
  | respond line =>
    rcases hp : s.pending with _ | p
    · have hof : s.writes.length = s.exchanges := by
        have := h.oneFlight
        rw [hp] at this
        simpa using this
      simp only [step, hp, Option.none_bind]
      rcases hres : parseStatusResponse (jsTrim line) none with _ | st <;>
        simp only [hres]
      · exact h
      · exact ⟨h.ordered, h.fresh, Or.inl rfl, by simp [hof]⟩
    · have hof : s.writes.length = s.exchanges + 1 := by
        have := h.oneFlight
        rw [hp] at this
        simpa using this
      simp only [step, hp, Option.some_bind]
      rcases hres : parseStatusResponse (jsTrim line) p.address with _ | st <;>
        simp only [hres]
      · exact ⟨h.ordered, h.fresh, Or.inl rfl, by simp [hof]⟩
      · exact ⟨h.ordered, h.fresh, Or.inl rfl, by simp [hof]⟩
  | timeoutFire =>
    rcases hp : s.pending with _ | p <;> simp only [step, hp]
    · exact h
    · have hof : s.writes.length = s.exchanges + 1 := by
        have := h.oneFlight
        rw [hp] at this
        simpa using this
      exact ⟨h.ordered, h.fresh, Or.inl rfl, by simp [hof]⟩
  | writeFail msg =>
    rcases hp : s.pending with _ | p <;> simp only [step, hp]
    · exact h
    · have hof : s.writes.length = s.exchanges + 1 := by
        have := h.oneFlight
        rw [hp] at this
        simpa using this
      exact ⟨h.ordered, h.fresh, Or.inl rfl, by simp [hof]⟩
  | closeConn =>
    rcases hp : s.pending with _ | p <;> simp only [step, hp]
    · have hof : s.writes.length = s.exchanges := by
        have := h.oneFlight
        rw [hp] at this
        simpa using this
      exact ⟨List.Pairwise.nil, by simp, Or.inl rfl, by simp [hof]⟩
    · have hof : s.writes.length = s.exchanges + 1 := by
        have := h.oneFlight
        rw [hp] at this
        simpa using this
      exact ⟨List.Pairwise.nil, by simp, Or.inl rfl, by simp [hof]⟩
  | clearPolling =>
    refine ⟨?_, ?_, h.pendProc, h.oneFlight⟩
    · exact List.Pairwise.filter _ h.ordered
    · intro c hc
      exact h.fresh c (List.mem_of_mem_filter hc)
  | openPort => exact ⟨h.ordered, h.fresh, h.pendProc, h.oneFlight⟩

theorem inv_foldl (evs : List Event) :
    ∀ s : ConnState, Inv s → Inv (evs.foldl step s) := by
  induction evs with
  | nil => intro s h; exact h
  | cons e evs ih =>
    intro s h
    exact ih _ (inv_step h e)

theorem inv_initState : Inv initState := by
  refine ⟨List.Pairwise.nil, ?_, Or.inl rfl, rfl⟩
  intro c hc
  cases hc

theorem inv_run (evs : List Event) : Inv (run evs) :=
  inv_foldl evs initState inv_initState

/-! ### The claims -/

/-- C1: at every instant at most one pending exchange exists on the
transport.  For every sequence of submitted commands and other events: a
pending exchange only exists while the dispatcher's busy flag is set, so a
dispatch — the only path that writes a frame to the channel and installs a
pending-exchange record — can only happen after the previous exchange was
resolved by a response, a timeout or a failure; consequently the number of
frames written never exceeds the number of resolved exchanges by more than
one, i.e. writes and exchange resolutions alternate strictly.  (That no
two pending-exchange records coexist is structural: the model's `pending`
field is a single `Option` slot exactly like the source's single
`pendingResponse` field.) -/
theorem claim_C1_one_pending_exchange (evs : List Event) :
    ((run evs).pending = none ∨ (run evs).processing = true) ∧
    (run evs).writes.length =
      (run evs).exchanges + (if (run evs).pending.isSome then 1 else 0) ∧
    (run evs).writes.length ≤ (run evs).exchanges + 1 := by
  obtain ⟨-, -, hpp, hof⟩ := inv_run evs
  refine ⟨hpp, hof, ?_⟩
  rw [hof]
  split <;> omega

/-- C2: after any sequence of submissions the queue satisfies the
priority-ordering invariant (`queueRel`: every HIGH entry precedes every
NORMAL entry, and entries of one class carry increasing handle
identifiers, i.e. FIFO submission order); consequently, whenever the head
of the queue — the entry a dispatch transmits — is NORMAL, no HIGH entry
remains queued, and the dispatched frame is exactly the head's command. -/
theorem claim_C2_priority_ordering (evs : List Event) :
    (run evs).queue.Pairwise queueRel ∧
    (∀ c rest, (run evs).queue = c :: rest →
      c.priority = CommandPriority.NORMAL →
      ∀ d ∈ rest, d.priority = CommandPriority.NORMAL) ∧
    (∀ c rest, (run evs).queue = c :: rest →
      (run evs).processing = false → (run evs).portOpen = true →
      (step (run evs) Event.procNext).writes =
        (run evs).writes ++ [c.command ++ "\r"]) := by
  have hinv := inv_run evs
  refine ⟨hinv.ordered, ?_, ?_⟩
  · intro c rest hq hc d hd
    exact ((List.pairwise_cons.mp (hq ▸ hinv.ordered)).1 d hd).1 hc
  · intro c rest hq hproc hopen
    simp only [step, tryDispatch, hq]
    rw [if_neg (by simp [hproc]), if_pos hopen]

/-- C3: a dispatched command that receives no reply within
`commandTimeout` has its completion handle resolved with null (a `value
none` resolution, not an `error` rejection), the pending exchange is
cleared and the busy flag is dropped, and the queue remains able to
dispatch the next queued command: the following `processNext` transmits
the head of the queue and installs its pending exchange. -/
theorem claim_C3_timeout_resolves_null (evs : List Event)
    (p : PendingExchange) (hp : (run evs).pending = some p) :
    (step (run evs) Event.timeoutFire).resolutions =
      (run evs).resolutions ++ [(p.hid, HandleResult.value none)] ∧
    (step (run evs) Event.timeoutFire).pending = none ∧
    (step (run evs) Event.timeoutFire).processing = false ∧
    (step (run evs) Event.timeoutFire).queue = (run evs).queue ∧
    (∀ c rest, (run evs).queue = c :: rest → (run evs).portOpen = true →
      (step (step (run evs) Event.timeoutFire) Event.procNext).writes =
        (run evs).writes ++ [c.command ++ "\r"] ∧
      (step (step (run evs) Event.timeoutFire) Event.procNext).pending =
        some { hid := c.id, address := extractQueryAddress c.command }) := by
  simp only [step, hp]
  refine ⟨True.intro, True.intro, True.intro, True.intro, ?_⟩
  intro c rest hq hopen
  simp only [tryDispatch, hq]
  rw [if_neg (by simp), if_pos hopen]
  exact ⟨rfl, rfl⟩

/-- Witness for C2: a concrete run two polling queries deep satisfies the
ordering, and after a timeout the next dispatch transmits the queued head. -/
theorem claim_C2_priority_ordering_witness :
    ([{ command := " 18 02-1", priority := CommandPriority.NORMAL, id := 1 },
      { command := " 18 03-1", priority := CommandPriority.NORMAL, id := 2 }] :
        List QueuedCommand).Pairwise queueRel ∧
    ({ command := " 18 03-1", priority := CommandPriority.NORMAL, id := 2 } :
        QueuedCommand).priority = CommandPriority.NORMAL ∧
    (step (run [Event.openPort,
        Event.submit (" 18 01-1") CommandPriority.NORMAL,
        Event.submit (" 18 02-1") CommandPriority.NORMAL,
        Event.timeoutFire]) Event.procNext).writes =
      [" 18 01-1\r", " 18 02-1\r"] := by
  have h2 := claim_C2_priority_ordering [Event.openPort,
    Event.submit (" 18 01-1") CommandPriority.NORMAL,
    Event.submit (" 18 02-1") CommandPriority.NORMAL,
    Event.submit (" 18 03-1") CommandPriority.NORMAL]
  have hq2 : (run [Event.openPort,
      Event.submit (" 18 01-1") CommandPriority.NORMAL,
      Event.submit (" 18 02-1") CommandPriority.NORMAL,
      Event.submit (" 18 03-1") CommandPriority.NORMAL]).queue =
      [{ command := " 18 02-1", priority := CommandPriority.NORMAL, id := 1 },
       { command := " 18 03-1", priority := CommandPriority.NORMAL, id := 2 }] := by
    decide
  have h3 := claim_C2_priority_ordering [Event.openPort,
    Event.submit (" 18 01-1") CommandPriority.NORMAL,
    Event.submit (" 18 02-1") CommandPriority.NORMAL,
    Event.timeoutFire]
  have hq3 : (run [Event.openPort,
      Event.submit (" 18 01-1") CommandPriority.NORMAL,
      Event.submit (" 18 02-1") CommandPriority.NORMAL,
      Event.timeoutFire]).queue =
      [{ command := " 18 02-1", priority := CommandPriority.NORMAL, id := 1 }] := by
    decide
  refine ⟨hq2 ▸ h2.1, ?_, ?_⟩
  · exact h2.2.1 _ _ hq2 rfl _ (List.mem_cons_self _ _)
  · exact (h3.2.2 _ [] hq3 (by decide) (by decide)).trans (by decide)

/-- Witness for C3: a concrete run with one query in flight and one queued;
the timeout resolves handle 0 with null and the follow-up dispatch writes
the queued query. -/
theorem claim_C3_timeout_resolves_null_witness :
    (step (run [Event.openPort,
        Event.submit (" 18 01-1") CommandPriority.NORMAL,
        Event.submit (" 18 02-1") CommandPriority.NORMAL])
        Event.timeoutFire).resolutions = [(0, HandleResult.value none)] ∧
    (step (run [Event.openPort,
        Event.submit (" 18 01-1") CommandPriority.NORMAL,
        Event.submit (" 18 02-1") CommandPriority.NORMAL])
        Event.timeoutFire).pending = none ∧
    (step (step (run [Event.openPort,
        Event.submit (" 18 01-1") CommandPriority.NORMAL,
        Event.submit (" 18 02-1") CommandPriority.NORMAL])
        Event.timeoutFire) Event.procNext).writes =
      [" 18 01-1\r", " 18 02-1\r"] := by
  have h := claim_C3_timeout_resolves_null [Event.openPort,
    Event.submit (" 18 01-1") CommandPriority.NORMAL,
    Event.submit (" 18 02-1") CommandPriority.NORMAL]
    { hid := 0, address := some ("01-1") } (by decide)
  refine ⟨h.1.trans (by decide), h.2.1, ?_⟩
  have h5 := h.2.2.2.2
    { command := " 18 02-1", priority := CommandPriority.NORMAL, id := 1 } []
    (by decide) (by decide)
  exact h5.1.trans (by decide)

/-- C6: calling `close()` while commands are queued rejects every queued
completion handle (error `Queue cleared`, raised by the shutdown
queue-clear), rejects the pending exchange if any (error
`Connection closing`), and leaves the queue depth at 0; the full trace
equation shows no queued handle is left unresolved. -/
theorem claim_C6_close_rejects_all (evs : List Event) :
    (step (run evs) Event.closeConn).queue = [] ∧
    (step (run evs) Event.closeConn).pending = none ∧
    (∀ c ∈ (run evs).queue,
      (c.id, HandleResult.error ("Queue cleared")) ∈
        (step (run evs) Event.closeConn).resolutions) ∧
    (∀ p, (run evs).pending = some p →
      (p.hid, HandleResult.error ("Connection closing")) ∈
        (step (run evs) Event.closeConn).resolutions) ∧
    (step (run evs) Event.closeConn).resolutions =
      (run evs).resolutions ++
        (run evs).queue.map
          (fun (c : QueuedCommand) => (c.id, HandleResult.error ("Queue cleared"))) ++
        (match (run evs).pending with
          | some p => [(p.hid, HandleResult.error ("Connection closing"))]
          | none => []) := by
  rcases hp : (run evs).pending with _ | p <;> simp only [step, hp]
  · refine ⟨True.intro, True.intro, ?_, ?_, by simp⟩
    · intro c hc
      exact List.mem_append_right _ (List.mem_map_of_mem _ hc)
    · intro p' hp'
      cases hp'
  · refine ⟨True.intro, True.intro, ?_, ?_, by simp⟩
    · intro c hc
      exact List.mem_append_left _
        (List.mem_append_right _ (List.mem_map_of_mem _ hc))
    · intro p' hp'
      cases hp'
      exact List.mem_append_right _ (List.mem_singleton.mpr rfl)

/-- C7: `clearPollingCommands` rejects (error `Polling command cancelled`)
and removes exactly the NORMAL-class entries not yet dispatched, while
every HIGH-class entry remains queued in its original relative order (the
remaining queue is the order-preserving filter of the old one) and gains
no resolution. -/
theorem claim_C7_clear_polling (evs : List Event) :
    (step (run evs) Event.clearPolling).queue =
      (run evs).queue.filter (fun c => c.priority = CommandPriority.HIGH) ∧
    (step (run evs) Event.clearPolling).resolutions =
      (run evs).resolutions ++
        ((run evs).queue.filter
          (fun c => c.priority = CommandPriority.NORMAL)).map
          (fun (c : QueuedCommand) =>
            (c.id, HandleResult.error ("Polling command cancelled"))) ∧
    (step (run evs) Event.clearPolling).pending = (run evs).pending ∧
    (step (run evs) Event.clearPolling).processing = (run evs).processing ∧
    (∀ c ∈ (run evs).queue, c.priority = CommandPriority.HIGH →
      c ∈ (step (run evs) Event.clearPolling).queue ∧
      ∀ res, (c.id, res) ∈ (step (run evs) Event.clearPolling).resolutions →
        (c.id, res) ∈ (run evs).resolutions) := by
  have hids : ((run evs).queue).Pairwise
      (fun a b : QueuedCommand => a.id ≠ b.id) :=
    (inv_run evs).ordered.imp (fun h => h.2.2)
  refine ⟨rfl, rfl, rfl, rfl, ?_⟩
  intro c hc hcH
  constructor
  · simp only [step]
    exact List.mem_filter.mpr ⟨hc, by simp [hcH]⟩
  · intro res hres
    simp only [step] at hres
    rcases List.mem_append.mp hres with h1 | h1
    · exact h1
    · exfalso
      obtain ⟨d, hd, hde⟩ := List.mem_map.mp h1
      have hdq : d ∈ (run evs).queue := List.mem_of_mem_filter hd
      have hdN : d.priority = CommandPriority.NORMAL := by
        have := List.of_mem_filter hd
        simpa using this
      have hne : c ≠ d := by
        intro he
        rw [he, hdN] at hcH
        cases hcH
      have hidne : c.id ≠ d.id :=
        List.Pairwise.forall (fun _ _ h => h.symm) hids hc hdq hne
      have : d.id = c.id := congrArg Prod.fst hde
      exact hidne this.symm

/-- Witness for C6: a concrete run with one query in flight and one queued;
closing rejects the queued handle and the pending exchange. -/
theorem claim_C6_close_rejects_all_witness :
    (step (run [Event.openPort,
        Event.submit (" 18 01-1") CommandPriority.NORMAL,
        Event.submit (" 18 02-1") CommandPriority.NORMAL])
        Event.closeConn).queue = [] ∧
    (1, HandleResult.error ("Queue cleared")) ∈
      (step (run [Event.openPort,
        Event.submit (" 18 01-1") CommandPriority.NORMAL,
        Event.submit (" 18 02-1") CommandPriority.NORMAL])
        Event.closeConn).resolutions ∧
    (0, HandleResult.error ("Connection closing")) ∈
      (step (run [Event.openPort,
        Event.submit (" 18 01-1") CommandPriority.NORMAL,
        Event.submit (" 18 02-1") CommandPriority.NORMAL])
        Event.closeConn).resolutions := by
  have h := claim_C6_close_rejects_all [Event.openPort,
    Event.submit (" 18 01-1") CommandPriority.NORMAL,
    Event.submit (" 18 02-1") CommandPriority.NORMAL]
  exact ⟨h.1,
    h.2.2.1 { command := " 18 02-1", priority := CommandPriority.NORMAL, id := 1 }
      (by decide),
    h.2.2.2.1 { hid := 0, address := some ("01-1") } (by decide)⟩

/-- Witness for C7: with one HIGH and one NORMAL command queued behind an
in-flight query, clearing the polling class cancels exactly the NORMAL
entry while the HIGH entry stays queued. -/
theorem claim_C7_clear_polling_witness :
    (step (run [Event.openPort,
        Event.submit (" 18 01-1") CommandPriority.NORMAL,
        Event.submit (" 18 02-1") CommandPriority.NORMAL,
        Event.submit (" 10 03-1 250") CommandPriority.HIGH])
        Event.clearPolling).resolutions =
      [(1, HandleResult.error ("Polling command cancelled"))] ∧
    ({ command := " 10 03-1 250", priority := CommandPriority.HIGH, id := 2 } :
        QueuedCommand) ∈
      (step (run [Event.openPort,
        Event.submit (" 18 01-1") CommandPriority.NORMAL,
        Event.submit (" 18 02-1") CommandPriority.NORMAL,
        Event.submit (" 10 03-1 250") CommandPriority.HIGH])
        Event.clearPolling).queue := by
  have h := claim_C7_clear_polling [Event.openPort,
    Event.submit (" 18 01-1") CommandPriority.NORMAL,
    Event.submit (" 18 02-1") CommandPriority.NORMAL,
    Event.submit (" 10 03-1 250") CommandPriority.HIGH]
  refine ⟨h.2.1.trans (by decide), ?_⟩
  exact (h.2.2.2.2
    { command := " 10 03-1 250", priority := CommandPriority.HIGH, id := 2 }
    (by decide) rfl).1

/-- A response line with no correlated address never parses to a status
(the `!address` guard of `parseStatusResponse`). -/
theorem parseStatusResponse_none (response : String) :
    parseStatusResponse response none = none := by
  unfold parseStatusResponse
  rcases hm : match18VVV response.toList with _ | raw <;> simp [hm]

/-- C4: every correlated status line that matches the response grammar
decodes raw 0 to level 0, raw 1 to level 100 and every raw value from 2
upward to `round(raw / 250 * 100)` (half-up rounding, `mathRoundDiv`), and
the two concrete exchanges of the spec decode as stated. -/
theorem claim_C4_response_decoding :
    (∀ response : String, ∀ addr : String, ∀ st : LoadStatus,
      parseStatusResponse response (some addr) = some st →
      st.address = addr ∧
      (st.raw = 0 → st.level = 0) ∧
      (st.raw = 1 → st.level = 100) ∧
      (2 ≤ st.raw → st.level = mathRoundDiv (st.raw * 100) 250)) ∧
    parseStatusResponse ("18 000") (some ("05-1")) =
      some { address := "05-1", level := 0, raw := 0 } ∧
    parseStatusResponse ("18 125") (some ("01-1")) =
      some { address := "01-1", level := 50, raw := 125 } := by
  refine ⟨?_, by decide, by decide⟩
  intro response addr st hst
  unfold parseStatusResponse at hst
  rcases hm : match18VVV response.toList with _ | raw <;> rw [hm] at hst
  · exact absurd hst (by simp)
  · simp only [Option.some.injEq] at hst
    subst hst
    refine ⟨rfl, ?_, ?_, ?_⟩
    · intro h0
      have h0' : raw = 0 := h0
      show rawToLevel raw = 0
      rw [h0']
      decide
    · intro h1
      have h1' : raw = 1 := h1
      show rawToLevel raw = 100
      rw [h1']
      decide
    · intro h2
      have h2' : 2 ≤ raw := h2
      show rawToLevel raw = mathRoundDiv (raw * 100) 250
      unfold rawToLevel
      rw [if_neg (by omega)]

/-- Witness for C4: the general decoding statement applied to the concrete
exchange `"18 250"` on address `"07-4"`. -/
theorem claim_C4_response_decoding_witness :
    ({ address := "07-4", level := rawToLevel 250, raw := 250 } :
      LoadStatus).level = mathRoundDiv (250 * 100) 250 := by
  exact (claim_C4_response_decoding.1 ("18 250") ("07-4")
    { address := "07-4", level := rawToLevel 250, raw := 250 }
    (by decide)).2.2.2 (by decide)

/-- C5: `setDimmer` clamps the percentage to [0,100] before conversion
(every input at most 0 encodes like 0, every input at least 100 encodes
like 100), the converted raw value always lies in [0,250] and is rendered
as a three-character zero-padded field, and the three spec examples encode
to `000`, `250` and `125`. -/
theorem claim_C5_setDimmer_encoding :
    (∀ addr : String, ∀ level : Int, setDimmerCommand addr level =
      " 10 " ++ addr ++ " " ++ pad3 (dimmerRaw level)) ∧
    (∀ level : Int, level ≤ 0 → dimmerRaw level = dimmerRaw 0) ∧
    (∀ level : Int, 100 ≤ level → dimmerRaw level = dimmerRaw 100) ∧
    (∀ level : Int, dimmerRaw level ≤ 250) ∧
    (∀ level : Int, (setDimmerValue level).length = 3) ∧
    setDimmerValue 0 = "000" ∧
    setDimmerValue 100 = "250" ∧
    setDimmerValue 50 = "125" := by
  have hclamp : ∀ level : Int, clamp100 level ≤ 100 := by
    intro level
    unfold clamp100
    omega
  refine ⟨fun _ _ => rfl, ?_, ?_, ?_, fun _ => rfl, by decide, by decide, by decide⟩
  · intro level hl
    have h0 : clamp100 level = clamp100 0 := by
      unfold clamp100
      omega
    unfold dimmerRaw
    rw [h0]
  · intro level hl
    have h100 : clamp100 level = clamp100 100 := by
      unfold clamp100
      omega
    unfold dimmerRaw
    rw [h100]
  · intro level
    have := hclamp level
    unfold dimmerRaw mathRoundDiv
    omega

/-- Witness for C5: the clamping conjuncts applied to out-of-range inputs
-5 and 150, and the range bound at 77. -/
theorem claim_C5_setDimmer_encoding_witness :
    dimmerRaw (-5) = dimmerRaw 0 ∧ dimmerRaw 150 = dimmerRaw 100 ∧
    dimmerRaw 77 ≤ 250 := by
  exact ⟨claim_C5_setDimmer_encoding.2.1 (-5) (by decide),
    claim_C5_setDimmer_encoding.2.2.1 150 (by decide),
    claim_C5_setDimmer_encoding.2.2.2.1 77⟩

/-- C8: encoding a level in [0,100] with `setDimmer`'s level-to-raw
conversion and decoding the resulting raw value with the response
decoder's level computation returns a level within one percentage point of
the input. -/
theorem claim_C8_round_trip (level : Nat) (h : level ≤ 100) :
    rawToLevel (dimmerRaw (level : Int)) ≤ level + 1 ∧
    level ≤ rawToLevel (dimmerRaw (level : Int)) + 1 := by
  have hall : ∀ l ∈ Finset.range 101,
      rawToLevel (dimmerRaw (l : Int)) ≤ l + 1 ∧
      l ≤ rawToLevel (dimmerRaw (l : Int)) + 1 := by
    decide
  exact hall level (Finset.mem_range.mpr (by omega))

/-- Witness for C8: the round trip at level 33 (raw 83, decoded back
to 33). -/
theorem claim_C8_round_trip_witness :
    rawToLevel (dimmerRaw ((33 : Nat) : Int)) ≤ 34 ∧
    (33 : Nat) ≤ rawToLevel (dimmerRaw ((33 : Nat) : Int)) + 1 := by
  exact claim_C8_round_trip 33 (by decide)

/-- Any number of polling ticks starting from an empty address list
submit nothing and only arm the reschedule timer. -/
theorem pollTicks_empty :
    ∀ (n : Nat) (ps : PollState), ps.loadAddresses = [] →
      pollTicks ps (n + 1) =
        ({ ps with timerArmed := true }, List.replicate (n + 1) none) := by
  intro n
  induction n with
  | zero =>
    intro ps hps
    simp [pollTicks, pollNextLoad, hps]
  | succ n ih =>
    intro ps hps
    have h1 : pollNextLoad ps = ({ ps with timerArmed := true }, none) := by
      simp [pollNextLoad, hps]
    have h2 := ih { ps with timerArmed := true } hps
    rw [pollTicks]
    simp only [h1, h2, List.replicate_succ]

/-- C9: with an empty address list every polling tick is total (the model
is a function), submits no query, and unconditionally arms the reschedule
timer, so the loop keeps ticking indefinitely with no submissions; and
after any number of such ticks, supplying a non-empty address list via
`setLoadAddresses` makes the very next tick submit a query for the first
address — no restart of the loop is needed. -/
theorem claim_C9_empty_polling (ps : PollState) (h : ps.loadAddresses = []) :
    pollNextLoad ps = ({ ps with timerArmed := true }, none) ∧
    (∀ n : Nat, pollTicks ps (n + 1) =
      ({ ps with timerArmed := true }, List.replicate (n + 1) none)) ∧
    (∀ n : Nat, ∀ a : String, ∀ as : List String,
      (pollNextLoad (setLoadAddresses (pollTicks ps n).1 (a :: as))).2 =
        some (queryLoadCommand a)) := by
  refine ⟨by simp [pollNextLoad, h], fun n => pollTicks_empty n ps h, ?_⟩
  intro n a as
  simp [pollNextLoad, setLoadAddresses]

/-- Witness for C9: four empty ticks submit nothing, and after three empty
ticks an address-list update makes the next tick query the new first
address. -/
theorem claim_C9_empty_polling_witness :
    pollNextLoad { loadAddresses := [], currentPollingIndex := 0, timerArmed := false } =
      ({ loadAddresses := [], currentPollingIndex := 0, timerArmed := true }, none) ∧
    (pollTicks { loadAddresses := [], currentPollingIndex := 0, timerArmed := false } 4).2 =
      [none, none, none, none] ∧
    (pollNextLoad (setLoadAddresses
      (pollTicks { loadAddresses := [], currentPollingIndex := 0, timerArmed := false } 3).1
      (["01-1", "02-1"]))).2 = some (" 18 01-1") := by
  have h := claim_C9_empty_polling
    { loadAddresses := [], currentPollingIndex := 0, timerArmed := false } rfl
  refine ⟨h.1, ?_, ?_⟩
  · exact (congrArg Prod.snd (h.2.1 3)).trans (by decide)
  · exact (h.2.2 3 ("01-1") ["02-1"]).trans (by decide)

/-- The query-address regex rejects every command whose first non-blank
characters are `10` (the set-command code): no address is captured. -/
theorem extractQueryAddressL_set10 (l : List Char) :
    extractQueryAddressL (' ' :: '1' :: '0' :: l) = none := by
  have h1 : List.dropWhile Char.isWhitespace (' ' :: '1' :: '0' :: l) =
      '1' :: '0' :: l := by
    rw [List.dropWhile_cons_of_pos (by decide),
      List.dropWhile_cons_of_neg (by decide)]
  unfold extractQueryAddressL
  rw [h1]
  rcases l with _ | ⟨c, l⟩
  · rfl
  · simp

/-- C10: a `loadStatus` event is emitted only for responses correlated to
a query command.  A line with no correlated address never parses; the set
commands built by `setDimmer`/`setRelay` never capture an address, so
dispatching one installs a pending exchange with no address; a line
arriving for such an exchange resolves the command's handle with the
trimmed line but emits no status event; and a line arriving with no
pending exchange at all changes nothing. -/
theorem claim_C10_status_only_for_queries (evs : List Event) :
    (∀ response : String, parseStatusResponse response none = none) ∧
    (∀ addr : String, ∀ level : Int,
      extractQueryAddress (setDimmerCommand addr level) = none) ∧
    (∀ addr : String, ∀ isOn : Bool,
      extractQueryAddress (setRelayCommand addr isOn) = none) ∧
    (∀ line : String, ∀ p : PendingExchange,
      (run evs).pending = some p → p.address = none →
      (step (run evs) (Event.respond line)).emitted = (run evs).emitted ∧
      (step (run evs) (Event.respond line)).resolutions =
        (run evs).resolutions ++ [(p.hid, HandleResult.value (some (jsTrim line)))]) ∧
    (∀ line : String, (run evs).pending = none →
      step (run evs) (Event.respond line) = run evs) ∧
    (∀ c rest, (run evs).queue = c :: rest →
      (run evs).processing = false → (run evs).portOpen = true →
      extractQueryAddress c.command = none →
      (step (run evs) Event.procNext).pending =
        some { hid := c.id, address := none }) := by
  refine ⟨parseStatusResponse_none, ?_, ?_, ?_, ?_, ?_⟩
  · intro addr level
    exact extractQueryAddressL_set10
      (' ' :: (addr.data ++ (' ' :: (setDimmerValue level).data)))
  · intro addr isOn
    exact extractQueryAddressL_set10
      (' ' :: (addr.data ++ (' ' :: (if isOn then "001" else "000").data)))
  · intro line p hp hpa
    simp only [step, hp, Option.some_bind, hpa, parseStatusResponse_none]
    exact ⟨True.intro, True.intro⟩
  · intro line hp
    simp only [step, hp, Option.none_bind, parseStatusResponse_none]
  · intro c rest hq hproc hopen hext
    simp only [step, tryDispatch, hq]
    rw [if_neg (by simp [hproc]), if_pos hopen]
    rw [hext]

/-- Witness for C10: dispatching a relay set command installs an
address-less pending exchange; a line arriving then resolves handle 0 with
the line and emits nothing; and a line with no pending exchange leaves the
state unchanged. -/
theorem claim_C10_status_only_for_queries_witness :
    (step (run [Event.openPort,
        Event.submit (" 10 02-3 001") CommandPriority.HIGH])
        (Event.respond ("18 125"))).emitted = [] ∧
    (step (run [Event.openPort,
        Event.submit (" 10 02-3 001") CommandPriority.HIGH])
        (Event.respond ("18 125"))).resolutions =
      [(0, HandleResult.value (some ("18 125")))] ∧
    step (run [Event.openPort]) (Event.respond ("18 125")) =
      run [Event.openPort] ∧
    (step (run [Event.openPort,
        Event.submit (" 10 02-3 001") CommandPriority.HIGH,
        Event.submit (" 10 04-1 000") CommandPriority.HIGH,
        Event.timeoutFire]) Event.procNext).pending =
      some { hid := 1, address := none } := by
  have h := claim_C10_status_only_for_queries [Event.openPort,
    Event.submit (" 10 02-3 001") CommandPriority.HIGH]
  have h4 := h.2.2.2.1 ("18 125") { hid := 0, address := none }
    (by decide) rfl
  have h2 := claim_C10_status_only_for_queries [Event.openPort]
  have h6 := claim_C10_status_only_for_queries [Event.openPort,
    Event.submit (" 10 02-3 001") CommandPriority.HIGH,
    Event.submit (" 10 04-1 000") CommandPriority.HIGH,
    Event.timeoutFire]
  refine ⟨h4.1.trans (by decide), h4.2.trans (by decide),
    h2.2.2.2.2.1 ("18 125") (by decide), ?_⟩
  exact h6.2.2.2.2.2
    { command := " 10 04-1 000", priority := CommandPriority.HIGH, id := 1 } []
    (by decide) (by decide) (by decide) (by decide)

end Litetouch
